import Mathlib

/-!
Verification of the AAAAXY level/engine core against its specification.

The development shallowly embeds the Go sources:
  * the level loader and save-game logic (`internal/level`, `src/unnamed/part_000`),
  * the fixed-point arithmetic (`internal/math` fixed code, `src/unnamed/part_001`),
  * the trace-engine skeleton (`src/internal/aaaaaa/world.go`).

The `internal/math` geometry primitives (`Pos`, `Delta`, `Orientation`) and the
`MulFracInt64` helper are not present under `src/`; they are modelled from the
specification's words (sections 3 and 4.1) where noted.  Machine integers are
modelled as unbounded `Int`; Go panics are modelled explicitly by the
`GoResult.crash` constructor.
-/

namespace AAAAXY

/-- Modelled from the spec: integer 2D displacement vector (section 3, Position/Delta).
The `internal/math` package is absent from src. -/
structure Delta where
  dx : Int
  dy : Int
deriving DecidableEq

/-- Modelled from the spec: integer 2D pixel/tile coordinates (section 3). -/
structure Pos where
  x : Int
  y : Int
deriving DecidableEq

/-- Modelled from the spec: `Pos.Add` adds a displacement to a position. -/
def Pos.add (p : Pos) (d : Delta) : Pos :=
  ⟨p.x + d.dx, p.y + d.dy⟩

/-- Modelled from the spec: `a.Delta(b)` is the displacement from `b` to `a`. -/
def Pos.delta (p q : Pos) : Delta :=
  ⟨p.x - q.x, p.y - q.y⟩

/-- Modelled from the spec: componentwise division with defined rounding
(rounding toward minus infinity); used as `toPos2.Div(2)` in the loader. -/
def Pos.div (p : Pos) (m : Int) : Pos :=
  ⟨Int.fdiv p.x m, Int.fdiv p.y m⟩

/-- Modelled from the spec (section 4.1): an Orientation is a linear transform
on Delta, an element of the dihedral group of order 8; `Concat` is matrix
multiplication in a fixed basis.  Represented as the integer matrix
`[[a, b], [c, d]]`. -/
structure Orientation where
  a : Int
  b : Int
  c : Int
  d : Int
deriving DecidableEq

/-- Modelled from the spec: `Apply` transforms both axis and sign of a Delta. -/
def Orientation.Apply (o : Orientation) (v : Delta) : Delta :=
  ⟨o.a * v.dx + o.b * v.dy, o.c * v.dx + o.d * v.dy⟩

/-- Modelled from the spec: `Concat` is matrix multiplication,
`(o.Concat p).Apply v = o.Apply (p.Apply v)`. -/
def Orientation.Concat (o p : Orientation) : Orientation :=
  ⟨o.a * p.a + o.b * p.c, o.a * p.b + o.b * p.d,
   o.c * p.a + o.d * p.c, o.c * p.b + o.d * p.d⟩

/-- Modelled from the spec: the composition identity. -/
def Orientation.identityO : Orientation := ⟨1, 0, 0, 1⟩

/-- Modelled from the spec: `FlipX` mirrors the x axis. -/
def Orientation.flipX : Orientation := ⟨-1, 0, 0, 1⟩

/-- Modelled from the spec: `FlipY` mirrors the y axis. -/
def Orientation.flipY : Orientation := ⟨1, 0, 0, -1⟩

/-- Modelled from the spec: `FlipD` mirrors along the diagonal, swapping axes. -/
def Orientation.flipD : Orientation := ⟨0, 1, 1, 0⟩

/-- Modelled from the spec: `Inverse` satisfies
`T.Concat(T.Inverse()) == Identity`; for the eight orthogonal group members
this is the matrix transpose. -/
def Orientation.Inverse (o : Orientation) : Orientation :=
  ⟨o.a, o.c, o.b, o.d⟩

/-- Modelled from the spec: the eight members of the orientation group
(identity, three rotations, four reflections); `ParseOrientation` only ever
produces these. -/
def d4 : List Orientation :=
  [⟨1, 0, 0, 1⟩, ⟨0, -1, 1, 0⟩, ⟨-1, 0, 0, -1⟩, ⟨0, 1, -1, 0⟩,
   ⟨-1, 0, 0, 1⟩, ⟨1, 0, 0, -1⟩, ⟨0, 1, 1, 0⟩, ⟨0, -1, -1, 0⟩]

/-- Modelled from the spec: `m.West()`, the unit displacement toward the west. -/
def west : Delta := ⟨-1, 0⟩

theorem Orientation.concat_assoc (o p q : Orientation) :
    (o.Concat p).Concat q = o.Concat (p.Concat q) := by
  cases o; cases p; cases q
  simp only [Orientation.Concat, Orientation.mk.injEq]
  refine ⟨by ring, by ring, by ring, by ring⟩

theorem Orientation.concat_identityO (o : Orientation) :
    o.Concat Orientation.identityO = o := by
  cases o
  simp [Orientation.Concat, Orientation.identityO]

theorem Orientation.identityO_concat (o : Orientation) :
    Orientation.identityO.Concat o = o := by
  cases o
  simp [Orientation.Concat, Orientation.identityO]

theorem Orientation.inverse_concat_self {o : Orientation} (h : o ∈ d4) :
    o.Inverse.Concat o = Orientation.identityO := by
  fin_cases h <;> decide

theorem Orientation.concat_self_inverse {o : Orientation} (h : o ∈ d4) :
    o.Concat o.Inverse = Orientation.identityO := by
  fin_cases h <;> decide

theorem Orientation.flipX_flipX :
    Orientation.flipX.Concat Orientation.flipX = Orientation.identityO := by
  decide

/-- The cross-warp transform from the loader (`src/unnamed/part_000`, line 611):
`transform := to.Orientation.Concat(m.FlipX()).Concat(from.Orientation.Inverse())`. -/
def warpTransform (fromO toO : Orientation) : Orientation :=
  (toO.Concat Orientation.flipX).Concat fromO.Inverse

theorem warpTransform_pair {fromO toO : Orientation}
    (hf : fromO ∈ d4) (ht : toO ∈ d4) :
    (warpTransform fromO toO).Concat (warpTransform toO fromO) =
      Orientation.identityO := by
  fin_cases hf <;> fin_cases ht <;> decide

/-- `RawWarpZone` as collected by `Load` (src/unnamed/part_000, lines 472-476). -/
structure RawWarpZone where
  startTile : Pos
  endTile : Pos
  orientation : Orientation
  initialState : Bool
deriving DecidableEq

/-- `WarpZone` (src/unnamed/part_000, lines 239-245). -/
structure WarpZone where
  name : String
  initialState : Bool
  prevTile : Pos
  toTile : Pos
  transform : Orientation
deriving DecidableEq

/-- The inclusive integer range `[a, b]` iterated by the Go counting loops. -/
def intRange (a b : Int) : List Int :=
  (List.range (b + 1 - a).toNat).map fun i => a + (i : Int)

/-- One WarpZone edge built for cell `fromPos` of the leg `(fz, tz)` by `Load`
(src/unnamed/part_000, lines 611-635). -/
def warpCell (warpname : String) (fz tz : RawWarpZone) (fromPos : Pos) : WarpZone :=
  let transform := warpTransform fz.orientation tz.orientation
  let fromCenter2 := fz.startTile.add (fz.endTile.delta ⟨0, 0⟩)
  let toCenter2 := tz.startTile.add (tz.endTile.delta ⟨0, 0⟩)
  let prevPos := fromPos.add (fz.orientation.Apply west)
  let fromPos2 := fromPos.add (fromPos.delta ⟨0, 0⟩)
  let toPos2 := toCenter2.add (transform.Apply (fromPos2.delta fromCenter2))
  let toPos := (toPos2.div 2).add (tz.orientation.Apply west)
  { name := warpname, initialState := fz.initialState,
    prevTile := prevPos, toTile := toPos, transform := transform }

/-- All (cell, edge) pairs built for one leg of a warp pair: the nested loops
`for fromy ...; for fromx ...` of `Load` (src/unnamed/part_000, lines 614-637). -/
def warpLegCells (warpname : String) (fz tz : RawWarpZone) : List (Pos × WarpZone) :=
  (intRange fz.startTile.y fz.endTile.y).flatMap fun fromy =>
    (intRange fz.startTile.x fz.endTile.x).map fun fromx =>
      (⟨fromx, fromy⟩, warpCell warpname fz tz ⟨fromx, fromy⟩)

theorem mem_warpLegCells {warpname : String} {fz tz : RawWarpZone}
    {cw : Pos × WarpZone} (h : cw ∈ warpLegCells warpname fz tz) :
    cw.2 = warpCell warpname fz tz cw.1 := by
  unfold warpLegCells at h
  simp only [List.mem_flatMap, List.mem_map] at h
  obtain ⟨fromy, _, fromx, _, rfl⟩ := h
  rfl

/-- C1: for every valid warp-zone pair constructed at load time (both legs
carrying parsed group-member orientations), the Transform stored on an edge
of one leg composed via Concat with the Transform stored on an edge of the
paired leg equals the identity orientation, so crossing a warp and then
crossing its pair with inverted direction returns a moving frame to its
original orientation. -/
theorem c1_warp_pair_transform_roundtrip
    {warpname : String} {za zb : RawWarpZone}
    (ha : za.orientation ∈ d4) (hb : zb.orientation ∈ d4)
    {cw1 cw2 : Pos × WarpZone}
    (h1 : cw1 ∈ warpLegCells warpname za zb)
    (h2 : cw2 ∈ warpLegCells warpname zb za) :
    (cw1.2.transform).Concat cw2.2.transform = Orientation.identityO := by
  have e1 : cw1.2.transform = warpTransform za.orientation zb.orientation := by
    rw [mem_warpLegCells h1]; rfl
  have e2 : cw2.2.transform = warpTransform zb.orientation za.orientation := by
    rw [mem_warpLegCells h2]; rfl
  rw [e1, e2]
  exact warpTransform_pair ha hb

/-- Witness for C1 at the concrete 1x1 warp pair (5,5)/(10,5) with identity
orientations on both legs. -/
theorem c1_witness :
    ((⟨⟨5, 5⟩, ⟨"A", true, ⟨4, 5⟩, ⟨9, 5⟩, ⟨-1, 0, 0, 1⟩⟩⟩ :
        Pos × WarpZone).2.transform).Concat
      (⟨⟨10, 5⟩, ⟨"A", true, ⟨9, 5⟩, ⟨4, 5⟩, ⟨-1, 0, 0, 1⟩⟩⟩ :
        Pos × WarpZone).2.transform = Orientation.identityO :=
  @c1_warp_pair_transform_roundtrip "A"
    ⟨⟨5, 5⟩, ⟨5, 5⟩, ⟨1, 0, 0, 1⟩, true⟩
    ⟨⟨10, 5⟩, ⟨10, 5⟩, ⟨1, 0, 0, 1⟩, true⟩
    (by decide) (by decide)
    ⟨⟨5, 5⟩, ⟨"A", true, ⟨4, 5⟩, ⟨9, 5⟩, ⟨-1, 0, 0, 1⟩⟩⟩
    ⟨⟨10, 5⟩, ⟨"A", true, ⟨9, 5⟩, ⟨4, 5⟩, ⟨-1, 0, 0, 1⟩⟩⟩
    (by decide) (by decide)

/-- The destination-cell formula exactly as claim C2 words it: apply the
transform to the doubled-coordinate offset of the cell from the `from`
rectangle's doubled center, add it to the `to` rectangle's doubled center,
and halve.  Stated from the spec's words, for comparison with the code. -/
def specDestCell (fz tz : RawWarpZone) (fromPos : Pos) : Pos :=
  let transform := warpTransform fz.orientation tz.orientation
  let fromCenter2 := fz.startTile.add (fz.endTile.delta ⟨0, 0⟩)
  let toCenter2 := tz.startTile.add (tz.endTile.delta ⟨0, 0⟩)
  let fromPos2 := fromPos.add (fromPos.delta ⟨0, 0⟩)
  (toCenter2.add (transform.Apply (fromPos2.delta fromCenter2))).div 2

/-- C2 counterexample: for the 1x1 warp pair at (5,5) and (10,5) with identity
orientations, the edge built by `Load` stores destination tile (9,5), while
the claim's formula (halved doubled-center image, without the final
`to.Orientation.Apply(West())` shift the code performs) yields (10,5). -/
theorem c2_counterexample :
    ((warpLegCells "A" ⟨⟨5, 5⟩, ⟨5, 5⟩, ⟨1, 0, 0, 1⟩, true⟩
        ⟨⟨10, 5⟩, ⟨10, 5⟩, ⟨1, 0, 0, 1⟩, true⟩).map fun cw => cw.2.toTile) =
      [⟨9, 5⟩] ∧
    specDestCell ⟨⟨5, 5⟩, ⟨5, 5⟩, ⟨1, 0, 0, 1⟩, true⟩
        ⟨⟨10, 5⟩, ⟨10, 5⟩, ⟨1, 0, 0, 1⟩, true⟩ ⟨5, 5⟩ = ⟨10, 5⟩ ∧
    (⟨9, 5⟩ : Pos) ≠ ⟨10, 5⟩ := by
  exact ⟨by decide, by decide, by decide⟩

/-- C2 amended: every WarpZone edge `Load` creates for a cell of the `from`
rectangle stores the transform
`to.Orientation.Concat(FlipX()).Concat(from.Orientation.Inverse())`, and its
destination cell is the claim's halved doubled-coordinate image shifted by one
further tile in the direction `to.Orientation.Apply(West())`. -/
theorem c2_warp_cell_transform_and_dest
    {warpname : String} {fz tz : RawWarpZone} {cw : Pos × WarpZone}
    (h : cw ∈ warpLegCells warpname fz tz) :
    cw.2.transform =
      (tz.orientation.Concat Orientation.flipX).Concat fz.orientation.Inverse ∧
    cw.2.toTile = (specDestCell fz tz cw.1).add (tz.orientation.Apply west) := by
  rw [mem_warpLegCells h]
  exact ⟨rfl, rfl⟩

/-- Witness for C2 (amended) at the concrete 1x1 warp pair. -/
theorem c2_witness :
    (⟨⟨5, 5⟩, ⟨"A", true, ⟨4, 5⟩, ⟨9, 5⟩, ⟨-1, 0, 0, 1⟩⟩⟩ :
        Pos × WarpZone).2.transform =
      (Orientation.Concat ⟨1, 0, 0, 1⟩ Orientation.flipX).Concat
        (Orientation.Inverse ⟨1, 0, 0, 1⟩) ∧
    (⟨⟨5, 5⟩, ⟨"A", true, ⟨4, 5⟩, ⟨9, 5⟩, ⟨-1, 0, 0, 1⟩⟩⟩ :
        Pos × WarpZone).2.toTile =
      (specDestCell ⟨⟨5, 5⟩, ⟨5, 5⟩, ⟨1, 0, 0, 1⟩, true⟩
          ⟨⟨10, 5⟩, ⟨10, 5⟩, ⟨1, 0, 0, 1⟩, true⟩ ⟨5, 5⟩).add
        (Orientation.Apply ⟨1, 0, 0, 1⟩ west) :=
  @c2_warp_cell_transform_and_dest "A"
    ⟨⟨5, 5⟩, ⟨5, 5⟩, ⟨1, 0, 0, 1⟩, true⟩
    ⟨⟨10, 5⟩, ⟨10, 5⟩, ⟨1, 0, 0, 1⟩, true⟩
    ⟨⟨5, 5⟩, ⟨"A", true, ⟨4, 5⟩, ⟨9, 5⟩, ⟨-1, 0, 0, 1⟩⟩⟩
    (by decide)

/-- Result of a Go computation that can panic: `ret` is a normal return,
`crash` models a Go panic (from `log.Panicf` or the runtime) with its message. -/
inductive GoResult (α : Type) where
  | ret (a : α)
  | crash (msg : String)
deriving DecidableEq

/-- True exactly on the panic outcome. -/
def GoResult.isCrash {α : Type} : GoResult α → Bool
  | .ret _ => false
  | .crash _ => true

/-- `PersistentState` is Go's `map[string]string`, modelled as an association
list. -/
abbrev PersistentState := List (String × String)

/-- `Spawnable`: the fields used by `LoadGame`, `SaveGame` and the
entity-linking loop; the geometry and property fields of the source struct are
not consulted by any claim. -/
structure Spawnable where
  id : Nat
  entityType : String
  persistentState : PersistentState
deriving DecidableEq

/-- `LevelTile` (src/unnamed/part_000, lines 228-232); of the embedded
graphical `Tile` only its `Spawnables` list is kept, the one field the claims
touch. -/
structure LevelTile where
  spawnables : List Spawnable
  valid : Bool
deriving DecidableEq

/-- `Level` (src/unnamed/part_000, lines 193-202): one flat slice of tiles
addressed by the linear index `pos.X + pos.Y*width`. -/
structure Level where
  player : Spawnable
  saveGameVersion : Int
  hash : Nat
  tiles : List LevelTile
  width : Int
deriving DecidableEq

/-- `Level.Tile` (src/unnamed/part_000, lines 205-212): indexes the flat
slice at `i := pos.X + pos.Y*l.width`; a Go slice access with `i` out of
range panics (modelled by `crash`), and a slot whose `Valid` flag is unset
yields Go `nil` (modelled by `none`). -/
def Level.tile (l : Level) (pos : Pos) : GoResult (Option LevelTile) :=
  let i := pos.x + pos.y * l.width
  if i < 0 then .crash "index out of range"
  else
    match l.tiles.get? i.toNat with
    | none => .crash "index out of range"
    | some t => if t.valid then .ret (some t) else .ret none

theorem Level.tile_congr (l : Level) (p q : Pos)
    (h : p.x + p.y * l.width = q.x + q.y * l.width) :
    l.tile p = l.tile q := by
  simp only [Level.tile]
  rw [h]

/-- C10: `Level.Tile` addresses one flat slice by the linear index
`pos.X + pos.Y*width`: it returns nil exactly when that slot exists in the
slice and its Valid flag is false; a position with `pos.X >= width` (outside
the level rectangle) gets the same answer as the position one row down at
`pos.X - width` — a tile from a different row rather than absent; and a
position whose linear index falls outside the slice makes it panic. -/
theorem c10_tile_linear_index (l : Level) (pos : Pos) :
    (l.tile pos = .ret none ↔
      0 ≤ pos.x + pos.y * l.width ∧
        ((l.tiles.get? (pos.x + pos.y * l.width).toNat).map LevelTile.valid =
          some false)) ∧
    l.tile pos = l.tile ⟨pos.x - l.width, pos.y + 1⟩ ∧
    (pos.x + pos.y * l.width < 0 ∨
        l.tiles.length ≤ (pos.x + pos.y * l.width).toNat →
      l.tile pos = .crash "index out of range") := by
  refine ⟨?_, ?_, ?_⟩
  · unfold Level.tile
    by_cases hneg : pos.x + pos.y * l.width < 0
    · simp only [hneg, if_true]
      constructor
      · intro h; exact absurd h (by simp)
      · rintro ⟨h0, -⟩; omega
    · simp only [hneg, if_false]
      cases hget : l.tiles.get? (pos.x + pos.y * l.width).toNat with
      | none =>
        constructor
        · intro h
          split at h <;> simp_all
        · rintro ⟨-, hmap⟩; simp at hmap
      | some t =>
        by_cases hv : t.valid
        · simp only [hv, if_true]
          constructor
          · intro h; exact absurd h (by simp)
          · rintro ⟨-, hmap⟩
            simp [hv] at hmap
        · simp only [hv, if_false]
          exact ⟨fun _ => ⟨by omega, by simp [hv]⟩, fun _ => rfl⟩
  · exact Level.tile_congr l pos ⟨pos.x - l.width, pos.y + 1⟩ (by ring)
  · intro h
    unfold Level.tile
    by_cases hneg : pos.x + pos.y * l.width < 0
    · simp [hneg]
    · have hlen : l.tiles.length ≤ (pos.x + pos.y * l.width).toNat := by
        rcases h with h | h
        · omega
        · exact h
      have hnone : l.tiles.get? (pos.x + pos.y * l.width).toNat = none := by
        rw [List.get?_eq_none]
        exact hlen
      simp only [hneg, if_false]
      rw [hnone]

/-- Witness for C10: in a 1x2 level whose second slot is invalid, position
(1,0) yields nil; in a 2x2 level, position (0,2) has linear index 4 and
panics. -/
theorem c10_witness :
    (Level.tile ⟨⟨0, "", []⟩, 0, 0, [⟨[], true⟩, ⟨[], false⟩], 2⟩ ⟨1, 0⟩ =
      .ret none) ∧
    (Level.tile ⟨⟨0, "", []⟩, 0, 0,
        [⟨[], true⟩, ⟨[], true⟩, ⟨[], true⟩, ⟨[], true⟩], 2⟩ ⟨0, 2⟩ =
      .crash "index out of range") :=
  ⟨(c10_tile_linear_index ⟨⟨0, "", []⟩, 0, 0, [⟨[], true⟩, ⟨[], false⟩], 2⟩
      ⟨1, 0⟩).1.mpr (by decide),
   (c10_tile_linear_index ⟨⟨0, "", []⟩, 0, 0,
      [⟨[], true⟩, ⟨[], true⟩, ⟨[], true⟩, ⟨[], true⟩], 2⟩ ⟨0, 2⟩).2.2
     (by decide)⟩

/-- The tile positions of a rectangle `startTile..endTile`, iterated y-outer,
x-inner, exactly like the Go loops of `Load`. -/
def tileRange (startTile endTile : Pos) : List Pos :=
  (intRange startTile.y endTile.y).flatMap fun y =>
    (intRange startTile.x endTile.x).map fun x => (⟨x, y⟩ : Pos)

/-- The entity-to-tile linking loop of `Load` (src/unnamed/part_000, lines
587-596): every position of the entity's range is looked up with
`level.Tile(pos)`; a nil tile raises `log.Panicf` (a crash), and an
out-of-range linear index already panics inside `Tile` itself.  On success
the linked positions are returned. -/
def linkCells (l : Level) : List Pos → GoResult (List Pos)
  | [] => .ret []
  | p :: rest =>
    match l.tile p with
    | .crash msg => .crash msg
    | .ret none => .crash "Invalid entity location: outside map bounds"
    | .ret (some _) =>
      match linkCells l rest with
      | .crash msg => .crash msg
      | .ret ps => .ret (p :: ps)

/-- Linking one entity whose rectangle spans `startTile..endTile`. -/
def linkEntity (l : Level) (startTile endTile : Pos) : GoResult (List Pos) :=
  linkCells l (tileRange startTile endTile)

/-- True when `level.Tile(p)` yields no tile: the linear index is outside the
slice (a panic) or the slot's Valid flag is unset (nil). -/
def slotAbsent (l : Level) (p : Pos) : Bool :=
  match l.tile p with
  | .ret (some _) => false
  | _ => true

theorem linkCells_crash_of_absent {l : Level} :
    ∀ ps : List Pos, (∃ p ∈ ps, slotAbsent l p = true) →
      (linkCells l ps).isCrash = true := by
  intro ps
  induction ps with
  | nil => rintro ⟨p, hp, -⟩; cases hp
  | cons q rest ih =>
    rintro ⟨p, hp, habs⟩
    rcases List.mem_cons.mp hp with rfl | hrest
    · unfold slotAbsent at habs
      unfold linkCells
      cases hq : l.tile p with
      | crash msg => simp [hq, GoResult.isCrash]
      | ret o =>
        cases o with
        | none => simp [hq, GoResult.isCrash]
        | some t => rw [hq] at habs; simp at habs
    · unfold linkCells
      cases hq : l.tile q with
      | crash msg => simp [GoResult.isCrash]
      | ret o =>
        cases o with
        | none => simp [GoResult.isCrash]
        | some t =>
          have hcr := ih ⟨p, hrest, habs⟩
          cases hrec : linkCells l rest with
          | crash msg => simp [GoResult.isCrash]
          | ret ps => rw [hrec] at hcr; simp [GoResult.isCrash] at hcr

/-- C7 counterexample: in a fully valid 2x2 level, an entity whose tile range
is the single out-of-bounds position (0,2) (linear index 4, outside the
four-element slice) makes `Load` panic — a crash, not a returned error — so
the claim that `Load` returns the failure rather than crashing is false. -/
theorem c7_counterexample :
    linkEntity
        ⟨⟨0, "", []⟩, 0, 0, [⟨[], true⟩, ⟨[], true⟩, ⟨[], true⟩, ⟨[], true⟩], 2⟩
        ⟨0, 2⟩ ⟨0, 2⟩ =
      .crash "index out of range" := by decide

/-- C7 amended: when a level defines an entity whose tile range contains a
position without a tile (linear index outside the slice, or Valid flag
unset), loading the level panics — `log.Panicf` for an invalid slot, the Go
runtime for an out-of-range slice index — instead of returning an error, and
no partially constructed level is returned. -/
theorem c7_entity_out_of_bounds_panics
    (l : Level) (startTile endTile : Pos)
    (h : ∃ p ∈ tileRange startTile endTile, slotAbsent l p = true) :
    (linkEntity l startTile endTile).isCrash = true :=
  linkCells_crash_of_absent (tileRange startTile endTile) h

/-- Witness for C7 (amended) at the concrete 2x2 level and the out-of-bounds
range (0,2)..(0,2). -/
theorem c7_witness :
    (linkEntity
        ⟨⟨0, "", []⟩, 0, 0, [⟨[], true⟩, ⟨[], true⟩, ⟨[], true⟩, ⟨[], true⟩], 2⟩
        ⟨0, 2⟩ ⟨0, 2⟩).isCrash = true :=
  c7_entity_out_of_bounds_panics
    ⟨⟨0, "", []⟩, 0, 0, [⟨[], true⟩, ⟨[], true⟩, ⟨[], true⟩, ⟨[], true⟩], 2⟩
    ⟨0, 2⟩ ⟨0, 2⟩ (by decide)

/-- One leg's WarpZone edges together with the loader's tile checks
(src/unnamed/part_000, lines 614-637): for each cell, `level.Tile(fromPos)`
and `level.Tile(toPos)` must yield tiles, else `log.Panicf` fires (and an
out-of-range index panics inside `Tile` already). -/
def warpLegChecked (l : Level) (warpname : String) (fz tz : RawWarpZone) :
    List Pos → GoResult (List (Pos × WarpZone))
  | [] => .ret []
  | p :: rest =>
    let wz := warpCell warpname fz tz p
    match l.tile p with
    | .crash msg => .crash msg
    | .ret none => .crash "Invalid WarpZone location: outside map bounds"
    | .ret (some _) =>
      match l.tile wz.toTile with
      | .crash msg => .crash msg
      | .ret none => .crash "Invalid WarpZone destination location: outside map bounds"
      | .ret (some _) =>
        match warpLegChecked l warpname fz tz rest with
        | .crash msg => .crash msg
        | .ret cws => .ret ((p, wz) :: cws)

/-- The warp-pairing phase of `Load` (src/unnamed/part_000, lines 599-639):
for each named group of raw warp zones, the count must be exactly two — else
`Load` returns the unpaired-WarpZone error — and then both legs' edges are
built, panicking on missing tiles.  Go iterates the `warpZones` map in
unspecified order; the model iterates the given list in order. -/
def buildWarpPhase (l : Level) :
    List (String × List RawWarpZone) →
      GoResult (Except String (List (Pos × WarpZone)))
  | [] => .ret (.ok [])
  | (warpname, pair) :: rest =>
    match pair with
    | [z0, z1] =>
      match warpLegChecked l warpname z0 z1 (tileRange z0.startTile z0.endTile) with
      | .crash msg => .crash msg
      | .ret leg0 =>
        match warpLegChecked l warpname z1 z0 (tileRange z1.startTile z1.endTile) with
        | .crash msg => .crash msg
        | .ret leg1 =>
          match buildWarpPhase l rest with
          | .crash msg => .crash msg
          | .ret (.error e) => .ret (.error e)
          | .ret (.ok cws) => .ret (.ok (leg0 ++ leg1 ++ cws))
    | _ => .ret (.error ("unpaired WarpZone " ++ warpname))

theorem buildWarpPhase_no_ok {l : Level} :
    ∀ zones : List (String × List RawWarpZone),
      (∃ e ∈ zones, e.2.length ≠ 2) →
      ∀ r, buildWarpPhase l zones ≠ .ret (.ok r) := by
  intro zones
  induction zones with
  | nil => rintro ⟨e, he, -⟩ r; cases he
  | cons hd rest ih =>
    rintro ⟨e, he, hlen⟩ r
    obtain ⟨nm, pair⟩ := hd
    rcases List.mem_cons.mp he with rfl | hrest
    · match pair, hlen with
      | [], _ => simp [buildWarpPhase]
      | [z0], _ => simp [buildWarpPhase]
      | [z0, z1], hlen => simp at hlen
      | z0 :: z1 :: z2 :: zs, _ => simp [buildWarpPhase]
    · match pair with
      | [] => simp [buildWarpPhase]
      | [z0] => simp [buildWarpPhase]
      | z0 :: z1 :: z2 :: zs => simp [buildWarpPhase]
      | [z0, z1] =>
        unfold buildWarpPhase
        cases hl0 : warpLegChecked l nm z0 z1 (tileRange z0.startTile z0.endTile) with
        | crash msg => simp [hl0]
        | ret leg0 =>
          cases hl1 : warpLegChecked l nm z1 z0 (tileRange z1.startTile z1.endTile) with
          | crash msg => simp [hl0, hl1]
          | ret leg1 =>
            cases hb : buildWarpPhase l rest with
            | crash msg => simp [hl0, hl1, hb]
            | ret x =>
              cases x with
              | error msg => simp [hl0, hl1, hb]
              | ok cws => exact absurd hb (ih ⟨e, hrest, hlen⟩ cws)

/-- C5 counterexample: with a fully valid 2x2 level, a properly paired warp
zone "B" placed out of bounds, and an unpaired warp zone "A" (one instance),
the pairing phase panics inside `level.Tile` before it ever reaches the
unpaired-count check for "A" (Go iterates the map in unspecified order), so
`Load` does not return an error as the claim states. -/
theorem c5_counterexample :
    (("A", [(⟨⟨0, 0⟩, ⟨0, 0⟩, ⟨1, 0, 0, 1⟩, true⟩ : RawWarpZone)]) ∈
      ([("B", [(⟨⟨5, 5⟩, ⟨5, 5⟩, ⟨1, 0, 0, 1⟩, true⟩ : RawWarpZone),
               (⟨⟨5, 5⟩, ⟨5, 5⟩, ⟨1, 0, 0, 1⟩, true⟩ : RawWarpZone)]),
        ("A", [(⟨⟨0, 0⟩, ⟨0, 0⟩, ⟨1, 0, 0, 1⟩, true⟩ : RawWarpZone)])] :
        List (String × List RawWarpZone))) ∧
    ([(⟨⟨0, 0⟩, ⟨0, 0⟩, ⟨1, 0, 0, 1⟩, true⟩ : RawWarpZone)]).length = 1 ∧
    buildWarpPhase
        ⟨⟨0, "", []⟩, 0, 0, [⟨[], true⟩, ⟨[], true⟩, ⟨[], true⟩, ⟨[], true⟩], 2⟩
        [("B", [⟨⟨5, 5⟩, ⟨5, 5⟩, ⟨1, 0, 0, 1⟩, true⟩,
                ⟨⟨5, 5⟩, ⟨5, 5⟩, ⟨1, 0, 0, 1⟩, true⟩]),
         ("A", [⟨⟨0, 0⟩, ⟨0, 0⟩, ⟨1, 0, 0, 1⟩, true⟩])] =
      .crash "index out of range" := by
  exact ⟨by decide, by decide, by rfl⟩

/-- C5 amended: for every level in which some warp-zone name occurs a number
of times different from two, `Load` never returns a Level; unless the
out-of-bounds panic of an earlier-iterated warp zone preempts it, the result
is a returned error. -/
theorem c5_unpaired_warp_never_loads
    (l : Level) (zones : List (String × List RawWarpZone))
    (h : ∃ e ∈ zones, e.2.length ≠ 2) :
    (∀ r, buildWarpPhase l zones ≠ .ret (.ok r)) ∧
    ((buildWarpPhase l zones).isCrash = false →
      ∃ msg, buildWarpPhase l zones = .ret (.error msg)) := by
  refine ⟨buildWarpPhase_no_ok zones h, fun hnc => ?_⟩
  cases hb : buildWarpPhase l zones with
  | crash msg => rw [hb] at hnc; simp [GoResult.isCrash] at hnc
  | ret x =>
    cases x with
    | error msg => exact ⟨msg, rfl⟩
    | ok cws => exact absurd hb (buildWarpPhase_no_ok zones h cws)

/-- Witness for C5 (amended): a level whose only warp zone "A" has a single
instance; the phase returns the unpaired-WarpZone error and never a level. -/
theorem c5_witness :
    (∀ r, buildWarpPhase
        ⟨⟨0, "", []⟩, 0, 0, [⟨[], true⟩, ⟨[], true⟩, ⟨[], true⟩, ⟨[], true⟩], 2⟩
        [("A", [⟨⟨0, 0⟩, ⟨0, 0⟩, ⟨1, 0, 0, 1⟩, true⟩])] ≠ .ret (.ok r)) ∧
    ((buildWarpPhase
        ⟨⟨0, "", []⟩, 0, 0, [⟨[], true⟩, ⟨[], true⟩, ⟨[], true⟩, ⟨[], true⟩], 2⟩
        [("A", [⟨⟨0, 0⟩, ⟨0, 0⟩, ⟨1, 0, 0, 1⟩, true⟩])]).isCrash = false →
      ∃ msg, buildWarpPhase
          ⟨⟨0, "", []⟩, 0, 0, [⟨[], true⟩, ⟨[], true⟩, ⟨[], true⟩, ⟨[], true⟩], 2⟩
          [("A", [⟨⟨0, 0⟩, ⟨0, 0⟩, ⟨1, 0, 0, 1⟩, true⟩])] = .ret (.error msg)) :=
  c5_unpaired_warp_never_loads
    ⟨⟨0, "", []⟩, 0, 0, [⟨[], true⟩, ⟨[], true⟩, ⟨[], true⟩, ⟨[], true⟩], 2⟩
    [("A", [⟨⟨0, 0⟩, ⟨0, 0⟩, ⟨1, 0, 0, 1⟩, true⟩])]
    ⟨("A", [⟨⟨0, 0⟩, ⟨0, 0⟩, ⟨1, 0, 0, 1⟩, true⟩]), by decide, by decide⟩

/-- `SaveGameData` (src/unnamed/part_000, lines 248-252): the per-entity
persistent state keyed by entity ID, plus level version and content hash. -/
structure SaveGameData where
  state : List (Nat × PersistentState)
  levelVersion : Int
  levelHash : Nat
deriving DecidableEq

/-- `SaveGame` (src/unnamed/part_000, lines 256-259): the data plus its
checksum. -/
structure SaveGame where
  data : SaveGameData
  hash : Nat
deriving DecidableEq

/-- `loadOne` inside `Level.LoadGame` (src/unnamed/part_000, lines 305-313):
the spawnable's persistent state is cleared and refilled from
`save.State[s.ID]`; an absent ID leaves it empty. -/
def loadOne (save : SaveGameData) (s : Spawnable) : Spawnable :=
  { s with persistentState := (save.state.lookup s.id).getD [] }

/-- Applying `loadOne` to every spawnable of a tile, as `ForEachTile` does. -/
def LevelTile.loadTile (save : SaveGameData) (t : LevelTile) : LevelTile :=
  { t with spawnables := t.spawnables.map (loadOne save) }

/-- `Level.LoadGame` (src/unnamed/part_000, lines 291-321).  The hash of the
save data is computed by the external `hashstructure` library, modelled as
the function argument `hashF`.  Mirroring the Go control flow, the checks run
in order — checksum first, then level version — and each failing check
returns before any spawnable is touched; a level content-hash mismatch only
logs a warning (logging is not modelled) and loading proceeds.  The result is
the returned error status paired with the level state after the call
(`Level` is mutated in place in Go). -/
def Level.loadGame (hashF : SaveGameData → Nat) (l : Level) (save : SaveGame) :
    Except String Unit × Level :=
  let saveHash := hashF save.data
  if saveHash ≠ save.hash then
    (.error "someone tampered with the save game", l)
  else if save.data.levelVersion ≠ l.saveGameVersion then
    (.error "save game does not match level version", l)
  else
    (.ok (),
      { l with
        tiles := l.tiles.map (LevelTile.loadTile save.data),
        player := loadOne save.data l.player })

/-- C3: whenever the stored Hash does not equal the hash of the record's
SaveGameData, `Level.LoadGame` returns the tampering error and the level —
every spawnable's persistent state, the player's included — is left exactly
as it was. -/
theorem c3_tampered_save_rejected_unchanged
    (hashF : SaveGameData → Nat) (l : Level) (save : SaveGame)
    (h : hashF save.data ≠ save.hash) :
    Level.loadGame hashF l save =
      (.error "someone tampered with the save game", l) := by
  unfold Level.loadGame
  simp [h]

/-- Witness for C3: a record whose checksum field (1) differs from the
computed hash (0) is rejected and the level returned unchanged. -/
theorem c3_witness :
    Level.loadGame (fun _ => 0)
        ⟨⟨7, "Player", [("k", "v")]⟩, 0, 5, [⟨[⟨3, "Checkpoint", [("a", "b")]⟩], true⟩], 1⟩
        ⟨⟨[], 0, 0⟩, 1⟩ =
      (.error "someone tampered with the save game",
        ⟨⟨7, "Player", [("k", "v")]⟩, 0, 5,
          [⟨[⟨3, "Checkpoint", [("a", "b")]⟩], true⟩], 1⟩) :=
  c3_tampered_save_rejected_unchanged (fun _ => 0)
    ⟨⟨7, "Player", [("k", "v")]⟩, 0, 5, [⟨[⟨3, "Checkpoint", [("a", "b")]⟩], true⟩], 1⟩
    ⟨⟨[], 0, 0⟩, 1⟩ (by decide)

/-- C6: `Level.LoadGame` fails whenever the record's LevelVersion differs
from the level's SaveGameVersion; but when only the level content hash
differs (checksum and version both matching), it does not fail: it loads the
saved persistent state into every spawnable and the player. -/
theorem c6_version_rejected_content_hash_tolerated
    (hashF : SaveGameData → Nat) (l : Level) (save : SaveGame) :
    (hashF save.data = save.hash →
      save.data.levelVersion ≠ l.saveGameVersion →
      Level.loadGame hashF l save =
        (.error "save game does not match level version", l)) ∧
    (hashF save.data = save.hash →
      save.data.levelVersion = l.saveGameVersion →
      save.data.levelHash ≠ l.hash →
      Level.loadGame hashF l save =
        (.ok (),
          { l with
            tiles := l.tiles.map (LevelTile.loadTile save.data),
            player := loadOne save.data l.player })) := by
  constructor
  · intro h1 h2
    unfold Level.loadGame
    simp [h1, h2]
  · intro h1 h2 h3
    unfold Level.loadGame
    simp [h1, h2]

/-- Witness for C6: against a level with SaveGameVersion 0 and content hash
5, a version-1 record is rejected, while a version-0 record whose LevelHash
is 7 (mismatching 5) loads its state into the checkpoint spawnable and
empties the player's state. -/
theorem c6_witness :
    (Level.loadGame (fun _ => 0)
        ⟨⟨7, "Player", [("k", "v")]⟩, 0, 5, [⟨[⟨3, "Checkpoint", [("a", "b")]⟩], true⟩], 1⟩
        ⟨⟨[], 1, 5⟩, 0⟩ =
      (.error "save game does not match level version",
        ⟨⟨7, "Player", [("k", "v")]⟩, 0, 5,
          [⟨[⟨3, "Checkpoint", [("a", "b")]⟩], true⟩], 1⟩)) ∧
    (Level.loadGame (fun _ => 0)
        ⟨⟨7, "Player", [("k", "v")]⟩, 0, 5, [⟨[⟨3, "Checkpoint", [("a", "b")]⟩], true⟩], 1⟩
        ⟨⟨[(3, [("x", "y")])], 0, 7⟩, 0⟩ =
      (.ok (),
        ⟨⟨7, "Player", []⟩, 0, 5, [⟨[⟨3, "Checkpoint", [("x", "y")]⟩], true⟩], 1⟩)) :=
  ⟨(c6_version_rejected_content_hash_tolerated (fun _ => 0)
      ⟨⟨7, "Player", [("k", "v")]⟩, 0, 5, [⟨[⟨3, "Checkpoint", [("a", "b")]⟩], true⟩], 1⟩
      ⟨⟨[], 1, 5⟩, 0⟩).1 rfl (by decide),
   ((c6_version_rejected_content_hash_tolerated (fun _ => 0)
      ⟨⟨7, "Player", [("k", "v")]⟩, 0, 5, [⟨[⟨3, "Checkpoint", [("a", "b")]⟩], true⟩], 1⟩
      ⟨⟨[(3, [("x", "y")])], 0, 7⟩, 0⟩).2 rfl rfl (by decide)).trans (by rfl)⟩

/-- `Fixed` (src/unnamed/part_001, lines 22-28): 12-bit fixed point over
int64, modelled as unbounded Int (none of the claimed inputs is near the
int64 range). -/
abbrev Fixed := Int

/-- `FixedOne` (src/unnamed/part_001, line 27): `1 << 12`. -/
def FixedOne : Fixed := 4096

/-- Modelled from the spec: `MulFracInt64` is absent from src (only its
caller `Fixed.MulFrac` is present); it computes `a*b/c` with a full-width
intermediate product, using Go's truncating integer division. -/
def MulFracInt64 (a b c : Int) : Int := Int.tdiv (a * b) c

/-- `Fixed.MulFrac` (src/unnamed/part_001, lines 46-48). -/
def Fixed.MulFrac (f n d : Fixed) : Fixed := MulFracInt64 f n d

/-- `Fixed.Mul` (src/unnamed/part_001, lines 42-44), transcribed exactly:
the body is `return g.MulFrac(g, FixedOne)`, so the receiver `f` is never
used. -/
def Fixed.Mul (f g : Fixed) : Fixed := Fixed.MulFrac g g FixedOne

/-- C8: the code diverges from the claim — at f = 2.0 and g = 3.0 (raw 8192
and 12288) `Fixed.Mul` returns 9.0 (raw 36864) = g*g, not the fixed-point
product 6.0 (raw 24576) = `MulFracInt64(f, g, FixedOne)`, and its result does
not depend on the receiver `f` at all. -/
theorem c8_mul_ignores_receiver :
    Fixed.Mul 8192 12288 = 36864 ∧
    MulFracInt64 8192 12288 4096 = 24576 ∧
    Fixed.Mul 8192 12288 ≠ MulFracInt64 8192 12288 4096 ∧
    ∀ f g : Fixed, Fixed.Mul f g = Fixed.Mul 0 g := by
  exact ⟨by decide, by decide, by decide, fun f g => rfl⟩

/-- The goal value `goal := f << fixedBits` of `Fixed.Sqrt`
(src/unnamed/part_001, line 82); for the nonnegative inputs the claims range
over, the shift is multiplication by 4096. -/
def sqrtGoal (f : Fixed) : Int := f * 4096

/-- The downward fixup loop of `Fixed.Sqrt` (src/unnamed/part_001, lines
85-88): `for s*s-s >= goal { s-- }`.  Fuel makes the recursion total; `none`
means the fuel ran out before the loop exited. -/
def fixDown (goal : Int) : Nat → Int → Option Int
  | 0, s => if s * s - s ≥ goal then none else some s
  | fuel + 1, s => if s * s - s ≥ goal then fixDown goal fuel (s - 1) else some s

/-- The upward fixup loop of `Fixed.Sqrt` (src/unnamed/part_001, lines
89-92): `for s*s+s < goal { s++ }`. -/
def fixUp (goal : Int) : Nat → Int → Option Int
  | 0, s => if s * s + s < goal then none else some s
  | fuel + 1, s => if s * s + s < goal then fixUp goal fuel (s + 1) else some s

/-- `Fixed.Sqrt` (src/unnamed/part_001, lines 66-98).  The floating-point
initial guess `NewFixedFloat64(math.Sqrt(f.Float64()))` is abstracted into
the argument `guess` — `math.Sqrt` of a nonnegative value is nonnegative, so
the guesses the code can produce are exactly the nonnegative Fixed values —
and the two fixup loops carry explicit fuel. -/
def Fixed.Sqrt (fuelDown fuelUp : Nat) (guess f : Fixed) : Option Fixed :=
  if f = 0 then some 0
  else
    match fixDown (sqrtGoal f) fuelDown guess with
    | none => none
    | some s => fixUp (sqrtGoal f) fuelUp s

theorem fixDown_ok {goal : Int} (hg : 1 ≤ goal) :
    ∀ (fuel : Nat) (s : Int), 0 ≤ s → s.toNat ≤ fuel →
      ∃ r, fixDown goal fuel s = some r ∧ 0 ≤ r ∧ r * r - r < goal := by
  intro fuel
  induction fuel with
  | zero =>
    intro s hs hf
    have hs0 : s = 0 := by omega
    subst hs0
    refine ⟨0, ?_, le_refl 0, by omega⟩
    unfold fixDown
    rw [if_neg (by omega)]
  | succ n ih =>
    intro s hs hf
    by_cases hc : s * s - s ≥ goal
    · by_cases hs2 : 2 ≤ s
      · obtain ⟨r, hr, hr0, hrb⟩ := ih (s - 1) (by omega) (by omega)
        exact ⟨r, by unfold fixDown; rw [if_pos hc]; exact hr, hr0, hrb⟩
      · exfalso
        have h01 : s = 0 ∨ s = 1 := by omega
        rcases h01 with rfl | rfl
        · norm_num at hc; omega
        · norm_num at hc; omega
    · exact ⟨s, by unfold fixDown; rw [if_neg hc], hs, by omega⟩

theorem fixUp_ok {goal : Int} (hg : 1 ≤ goal) :
    ∀ (fuel : Nat) (s : Int), 0 ≤ s → s * s - s < goal →
      (goal - s).toNat ≤ fuel →
      ∃ r, fixUp goal fuel s = some r ∧
        r * r - r < goal ∧ goal ≤ r * r + r := by
  intro fuel
  induction fuel with
  | zero =>
    intro s hs hb hf
    have hsg : goal ≤ s := by omega
    have hcond : ¬ s * s + s < goal := by nlinarith [mul_self_nonneg s]
    exact ⟨s, by unfold fixUp; rw [if_neg hcond], hb, not_lt.mp hcond⟩
  | succ n ih =>
    intro s hs hb hf
    by_cases hc : s * s + s < goal
    · have hslt : s < goal := by nlinarith [mul_self_nonneg s]
      obtain ⟨r, hr, h1, h2⟩ :=
        ih (s + 1) (by omega) (by nlinarith) (by omega)
      exact ⟨r, by unfold fixUp; rw [if_pos hc]; exact hr, h1, h2⟩
    · exact ⟨s, by unfold fixUp; rw [if_neg hc], hb, not_lt.mp hc⟩

theorem sqrt_bracket_unique {goal s t : Int} (hg : 1 ≤ goal)
    (hs1 : s * s - s < goal) (hs2 : goal ≤ s * s + s)
    (ht1 : t * t - t < goal) (ht2 : goal ≤ t * t + t) : s = t := by
  have hs0 : 1 ≤ s := by linarith
  have ht0 : 1 ≤ t := by linarith
  by_contra hne
  rcases lt_or_gt_of_ne hne with hlt | hlt
  · have hd : 0 ≤ t - s - 1 := by omega
    have hsum : 0 ≤ t + s := by omega
    nlinarith [mul_nonneg hd hsum]
  · have hd : 0 ≤ s - t - 1 := by omega
    have hsum : 0 ≤ s + t := by omega
    nlinarith [mul_nonneg hd hsum]

/-- C9 amended: for every Fixed f > 0 and every nonnegative initial guess
(`math.Sqrt` of a nonnegative input yields a nonnegative guess), Sqrt's fixup
loops terminate — fuel of `guess` steps downward and `f<<12` steps upward
suffices — and return the unique s satisfying
`s*s - s < (f << 12)` and `(f << 12) <= s*s + s`, independently of the
guess; for f = 0 the function returns 0, which the stated bracketing does
not admit. -/
theorem c9_sqrt_bracket (fuelDown fuelUp : Nat) (guess f : Fixed)
    (hf : 0 < f) (hg : 0 ≤ guess)
    (hfd : guess.toNat ≤ fuelDown) (hfu : (sqrtGoal f).toNat ≤ fuelUp) :
    ∃ s, Fixed.Sqrt fuelDown fuelUp guess f = some s ∧
      s * s - s < sqrtGoal f ∧ sqrtGoal f ≤ s * s + s ∧
      ∀ t, t * t - t < sqrtGoal f → sqrtGoal f ≤ t * t + t → t = s := by
  have hgoal : 1 ≤ sqrtGoal f := by
    have h1 : (1 : Int) ≤ f * 4096 := by nlinarith
    simpa [sqrtGoal] using h1
  obtain ⟨r, hr, hr0, hrb⟩ := fixDown_ok hgoal fuelDown guess hg hfd
  have hfu2 : (sqrtGoal f - r).toNat ≤ fuelUp := by omega
  obtain ⟨s, hsEq, h1, h2⟩ := fixUp_ok hgoal fuelUp r hr0 hrb hfu2
  refine ⟨s, ?_, h1, h2, ?_⟩
  · unfold Fixed.Sqrt
    rw [if_neg (ne_of_gt hf), hr]
    exact hsEq
  · intro t ht1 ht2
    exact sqrt_bracket_unique hgoal ht1 ht2 h1 h2

/-- C9 counterexample: at f = 0 the claimed characterization fails — Sqrt
returns 0, but `0*0 - 0 < (0 << 12)` is false (no integer satisfies the
bracketing when the goal is 0), so the returned value is not "the unique s"
the claim describes. -/
theorem c9_counterexample :
    Fixed.Sqrt 1 1 0 0 = some 0 ∧ ¬((0 : Int) * 0 - 0 < sqrtGoal 0) := by
  exact ⟨rfl, by decide⟩

/-- Witness for C9 (amended) at f = 1 with guess 0: the loops return the
unique bracketed root 64 (since 64*64 - 64 = 4032 < 4096 and
4096 <= 64*64 + 64 = 4160). -/
theorem c9_witness :
    ∃ s, Fixed.Sqrt 4096 4096 0 1 = some s ∧
      s * s - s < sqrtGoal 1 ∧ sqrtGoal 1 ≤ s * s + s ∧
      ∀ t, t * t - t < sqrtGoal 1 → sqrtGoal 1 ≤ t * t + t → t = s :=
  c9_sqrt_bracket 4096 4096 0 1 (by decide) (by decide) (by decide) (by decide)

/-- `TraceOptions` (src/internal/aaaaaa/world.go, lines 73-81). -/
structure TraceOptions where
  noTiles : Bool
  noEntities : Bool
  loadTiles : Bool
deriving DecidableEq

/-- Modelled from the spec: `Delta.Sub` (the internal/math vector arithmetic
is absent from src). -/
def Delta.sub (a b : Delta) : Delta := ⟨a.dx - b.dx, a.dy - b.dy⟩

/-- Modelled from the spec: `Delta.Add`. -/
def Delta.add (a b : Delta) : Delta := ⟨a.dx + b.dx, a.dy + b.dy⟩

/-- Modelled from the spec: `Delta.Mul`, componentwise scaling. -/
def Delta.mul (a : Delta) (n : Int) : Delta := ⟨a.dx * n, a.dy * n⟩

/-- Modelled from the spec: `Delta.Div`, componentwise division with defined
rounding (rounding toward minus infinity, as for `Pos.div`). -/
def Delta.div (a : Delta) (n : Int) : Delta := ⟨Int.fdiv a.dx n, Int.fdiv a.dy n⟩

/-- Modelled from the spec: `Delta.Norm1`, the L1 norm |dx| + |dy|. -/
def Delta.norm1 (a : Delta) : Int := |a.dx| + |a.dy|

/-- Modelled from the spec: `Pos.Sub`, subtracting a displacement. -/
def Pos.sub (p : Pos) (d : Delta) : Pos := ⟨p.x - d.dx, p.y - d.dy⟩

/-- `m.Rect` as used by `traceBox` (`from.Origin`, `from.Size`). -/
structure Rect where
  origin : Pos
  size : Delta
deriving DecidableEq

/-- The engine `TraceResult` as consumed by `traceBox`
(src/internal/audiowrap/player.go, package engine segment, lines 196-215:
fields EndPos, HitTilePos, HitTile, HitEntity, HitFogOfWar); its struct
declaration is not in src, so the field types follow spec section 3 — the
stopping tile (position, modelled by `hitTilePos` plus the `hitTile` flag for
the tile reference) and entity (`hitEntity`), the end position reached, and
the fog-of-war stop flag. -/
structure TraceResult where
  endPos : Pos
  hitTilePos : Option Pos
  hitTile : Bool
  hitEntity : Option Nat
  hitFogOfWar : Bool
deriving DecidableEq

/-- `MinEntitySize` (src/internal/audiowrap/player.go, package engine
segment, line 131). -/
def MinEntitySize : Int := 8

/-- `appendLineToTraces` (src/internal/audiowrap/player.go, package engine
segment, lines 169-178): adds `start`, the points
`start + delta*i/length` for `i = MinEntitySize, 2*MinEntitySize, ... <
length`, and `end` along the line to the collection.  The Go code collects
offsets into a `map[m.Delta]struct{}` (deduplicated, unspecified iteration
order); the model keeps the insertion-ordered list, duplicates included —
one admissible iteration order. -/
def appendLineToTraces (traces : List Delta) (start fin : Delta) : List Delta :=
  let delta := fin.sub start
  let length := delta.norm1
  let mids := (intRange 1 (Int.fdiv (length - 1) MinEntitySize)).map fun k =>
    start.add ((delta.mul (MinEntitySize * k)).div length)
  traces ++ [start] ++ mids ++ [fin]

/-- The line trace run from offset `d`: `traceLine(w, from.Origin.Add(delta),
to.Add(delta), o)` (player.go engine segment, line 200).  `traceLine` itself
is absent from src, so it is abstracted as the function argument `tl`
(closing over the world `w`). -/
def lineAt (tl : Pos → Pos → TraceOptions → TraceResult)
    (origin toP : Pos) (o : TraceOptions) (d : Delta) : TraceResult :=
  tl (origin.add d) (toP.add d) o

/-- The adjusted travel distance of the trace from offset `d`:
`adjustedEnd := trace.EndPos.Sub(delta)` and then
`adjustedEnd.Delta(from.Origin).Norm1()` (player.go engine segment, lines
201-202). -/
def travelAt (tl : Pos → Pos → TraceOptions → TraceResult)
    (origin toP : Pos) (o : TraceOptions) (d : Delta) : Int :=
  (((lineAt tl origin toP o d).endPos.sub d).delta origin).norm1

/-- The selection score of the trace from offset `d`:
`score := adjustedEnd.Delta(from.Origin).Norm1() * 2` and
`if trace.HitEntity == nil { score++ }` (player.go engine segment, lines
202-206): shortest trace wins, but entity hits are preferred. -/
def scoreAt (tl : Pos → Pos → TraceOptions → TraceResult)
    (origin toP : Pos) (o : TraceOptions) (d : Delta) : Int :=
  if (lineAt tl origin toP o d).hitEntity = none then
    travelAt tl origin toP o d * 2 + 1
  else
    travelAt tl origin toP o d * 2

/-- The selection loop of `traceBox` (player.go engine segment, lines
196-217): `if !haveTrace || score < best` the current trace's adjusted end
and hit fields are copied into the result and `best`/`haveTrace` updated. -/
def traceBoxLoop (tl : Pos → Pos → TraceOptions → TraceResult)
    (origin toP : Pos) (o : TraceOptions) :
    List Delta → TraceResult → Int → Bool → TraceResult
  | [], result, _, _ => result
  | d :: rest, result, best, haveTrace =>
    if haveTrace = false ∨ scoreAt tl origin toP o d < best then
      traceBoxLoop tl origin toP o rest
        ⟨(lineAt tl origin toP o d).endPos.sub d,
         (lineAt tl origin toP o d).hitTilePos,
         (lineAt tl origin toP o d).hitTile,
         (lineAt tl origin toP o d).hitEntity,
         (lineAt tl origin toP o d).hitFogOfWar⟩
        (scoreAt tl origin toP o d) true
    else
      traceBoxLoop tl origin toP o rest result best haveTrace

/-- The sampled leading-edge offsets of `traceBox` (player.go engine segment,
lines 183-195): the edge facing the direction of travel in x (left edge when
`delta.DX < 0`, else right edge) and in y (top edge when `delta.DY < 0`,
else bottom edge), each sampled by `appendLineToTraces`. -/
def sampledOffsets (fromR : Rect) (toP : Pos) : List Delta :=
  let delta := toP.delta fromR.origin
  let traces1 :=
    if delta.dx < 0 then
      appendLineToTraces [] ⟨0, 0⟩ ⟨0, fromR.size.dy - 1⟩
    else
      appendLineToTraces [] ⟨fromR.size.dx - 1, 0⟩
        ⟨fromR.size.dx - 1, fromR.size.dy - 1⟩
  if delta.dy < 0 then
    appendLineToTraces traces1 ⟨0, 0⟩ ⟨fromR.size.dx - 1, 0⟩
  else
    appendLineToTraces traces1 ⟨0, fromR.size.dy - 1⟩
      ⟨fromR.size.dx - 1, fromR.size.dy - 1⟩

/-- `traceBox` (src/internal/audiowrap/player.go, package engine segment,
lines 180-218): runs the bundle of line traces from the sampled leading-edge
offsets and selects by strict minimum score, starting from the zero
TraceResult with `best = 0` and `haveTrace = false`. -/
def traceBox (tl : Pos → Pos → TraceOptions → TraceResult)
    (fromR : Rect) (toP : Pos) (o : TraceOptions) : TraceResult :=
  traceBoxLoop tl fromR.origin toP o (sampledOffsets fromR toP)
    ⟨⟨0, 0⟩, none, false, none, false⟩ 0 false

theorem scoreAt_ge {tl : Pos → Pos → TraceOptions → TraceResult}
    {origin toP : Pos} {o : TraceOptions} {d : Delta} {L : Int}
    (h : L ≤ travelAt tl origin toP o d) :
    2 * L ≤ scoreAt tl origin toP o d := by
  unfold scoreAt
  split_ifs <;> omega

theorem scoreAt_hit_eq {tl : Pos → Pos → TraceOptions → TraceResult}
    {origin toP : Pos} {o : TraceOptions} {d : Delta} {L : Int}
    (hhit : (lineAt tl origin toP o d).hitEntity ≠ none)
    (hT : travelAt tl origin toP o d = L) :
    scoreAt tl origin toP o d = 2 * L := by
  unfold scoreAt
  rw [if_neg hhit, hT]
  ring

theorem scoreAt_eq_two_mul {tl : Pos → Pos → TraceOptions → TraceResult}
    {origin toP : Pos} {o : TraceOptions} {d : Delta} {L : Int}
    (hs : scoreAt tl origin toP o d = 2 * L)
    (h : L ≤ travelAt tl origin toP o d) :
    (lineAt tl origin toP o d).hitEntity ≠ none ∧
      travelAt tl origin toP o d = L := by
  unfold scoreAt at hs
  split_ifs at hs with hhit
  · omega
  · exact ⟨hhit, by omega⟩

theorem traceBoxLoop_hits {tl : Pos → Pos → TraceOptions → TraceResult}
    {origin toP : Pos} {o : TraceOptions} {L : Int} {e : Nat}
    {all : List Delta}
    (hmin : ∀ d ∈ all, L ≤ travelAt tl origin toP o d)
    (huni : ∀ d ∈ all, (lineAt tl origin toP o d).hitEntity = none ∨
      (lineAt tl origin toP o d).hitEntity = some e) :
    ∀ ds : List Delta, (∀ d ∈ ds, d ∈ all) →
    ∀ (acc : TraceResult) (best : Int) (haveTrace : Bool),
    ((best = 2 * L ∧ haveTrace = true ∧ acc.hitEntity = some e ∧
        (acc.endPos.delta origin).norm1 = L ∧
        ∃ d ∈ all, (lineAt tl origin toP o d).hitEntity = some e ∧
          acc.endPos = (lineAt tl origin toP o d).endPos.sub d) ∨
      ((haveTrace = false ∨ 2 * L < best) ∧
        ∃ d ∈ ds, (lineAt tl origin toP o d).hitEntity ≠ none ∧
          travelAt tl origin toP o d = L)) →
    (traceBoxLoop tl origin toP o ds acc best haveTrace).hitEntity = some e ∧
    ((traceBoxLoop tl origin toP o ds acc best haveTrace).endPos.delta
        origin).norm1 = L ∧
    ∃ d ∈ all, (lineAt tl origin toP o d).hitEntity = some e ∧
      (traceBoxLoop tl origin toP o ds acc best haveTrace).endPos =
        (lineAt tl origin toP o d).endPos.sub d := by
  intro ds
  induction ds with
  | nil =>
    intro _ acc best haveTrace hinv
    rcases hinv with ⟨-, -, h1, h2, h3⟩ | ⟨-, d, hd, -⟩
    · exact ⟨h1, h2, h3⟩
    · cases hd
  | cons d rest ih =>
    intro hsub acc best haveTrace hinv
    have hdAll : d ∈ all := hsub d (List.mem_cons_self d rest)
    have hdMin : L ≤ travelAt tl origin toP o d := hmin d hdAll
    have hsubR : ∀ d2 ∈ rest, d2 ∈ all :=
      fun d2 hd2 => hsub d2 (List.mem_cons_of_mem d hd2)
    unfold traceBoxLoop
    by_cases hc : haveTrace = false ∨ scoreAt tl origin toP o d < best
    · rw [if_pos hc]
      by_cases hs : scoreAt tl origin toP o d = 2 * L
      · obtain ⟨hhit, hT⟩ := scoreAt_eq_two_mul hs hdMin
        have hsome : (lineAt tl origin toP o d).hitEntity = some e := by
          rcases huni d hdAll with h | h
          · exact absurd h hhit
          · exact h
        refine ih hsubR _ _ _ (Or.inl ⟨hs.symm ▸ rfl, rfl, hsome, hT, d, hdAll, hsome, rfl⟩)
      · have hgt : 2 * L < scoreAt tl origin toP o d :=
          lt_of_le_of_ne (scoreAt_ge hdMin) (fun h => hs h.symm)
        rcases hinv with ⟨hb, hh, -⟩ | ⟨-, d2, hd2, hhit2, hT2⟩
        · rcases hc with hc | hc
          · exact absurd (hh.symm.trans hc) (by simp)
          · rw [hb] at hc
            exact absurd hc (by omega)
        · rcases List.mem_cons.mp hd2 with rfl | hd2
          · exact absurd (scoreAt_hit_eq hhit2 hT2) hs
          · exact ih hsubR _ _ _ (Or.inr ⟨Or.inr hgt, d2, hd2, hhit2, hT2⟩)
    · rw [if_neg hc]
      push_neg at hc
      obtain ⟨hht, hbl⟩ := hc
      rcases hinv with hgood | ⟨hbh, d2, hd2, hhit2, hT2⟩
      · exact ih hsubR _ _ _ (Or.inl hgood)
      · have hb2 : 2 * L < best := by
          rcases hbh with h | h
          · exact absurd h hht
          · exact h
        rcases List.mem_cons.mp hd2 with rfl | hd2
        · have := scoreAt_hit_eq hhit2 hT2
          rw [this] at hbl
          exact absurd hbl (by omega)
        · exact ih hsubR _ _ _ (Or.inr ⟨Or.inr hb2, d2, hd2, hhit2, hT2⟩)

/-- C4: for a box trace with entity collisions enabled (`NoEntities` unset)
in which some sampled leading-edge line trace is stopped by a solid entity at
the minimal adjusted travel distance L — a solid entity lying exactly on the
traced path — `traceBox` reports that entity as the hit and an adjusted end
position of distance exactly L taken from an entity-stopped line trace (the
entity's boundary, since the line trace ends where it met the entity), even
when an equal-length sampled-edge trace hit nothing: the score
`Norm1*2, +1 if no entity` makes an entity hit strictly beat every
equal-length miss.  `traceLine` is absent from src and abstracted as `tl`. -/
theorem c4_tracebox_entity_tie_break
    (tl : Pos → Pos → TraceOptions → TraceResult) (fromR : Rect) (toP : Pos)
    (o : TraceOptions) (L : Int) (e : Nat)
    (ho : o.noEntities = false)
    (hsome : ∃ d ∈ sampledOffsets fromR toP,
      (lineAt tl fromR.origin toP o d).hitEntity ≠ none ∧
        travelAt tl fromR.origin toP o d = L)
    (hmin : ∀ d ∈ sampledOffsets fromR toP,
      L ≤ travelAt tl fromR.origin toP o d)
    (huni : ∀ d ∈ sampledOffsets fromR toP,
      (lineAt tl fromR.origin toP o d).hitEntity = none ∨
        (lineAt tl fromR.origin toP o d).hitEntity = some e) :
    (traceBox tl fromR toP o).hitEntity = some e ∧
    ((traceBox tl fromR toP o).endPos.delta fromR.origin).norm1 = L ∧
    ∃ d ∈ sampledOffsets fromR toP,
      (lineAt tl fromR.origin toP o d).hitEntity = some e ∧
      (traceBox tl fromR toP o).endPos =
        (lineAt tl fromR.origin toP o d).endPos.sub d := by
  unfold traceBox
  exact traceBoxLoop_hits hmin huni (sampledOffsets fromR toP)
    (fun d hd => hd) ⟨⟨0, 0⟩, none, false, none, false⟩ 0 false
    (Or.inr ⟨Or.inl rfl, hsome⟩)

/-- Witness for C4: a 1x9 box at (0,10) moving east to (5,10); the sampled
offsets are (0,0) and (0,8) (with duplicates), the line trace from (0,10)
hits entity 7 after 1 pixel, the one from (0,18) hits a tile after 1 pixel —
an equal-length trace that hit nothing — and the selected result reports
entity 7 at adjusted distance 1. -/
theorem c4_witness :
    (traceBox
        (fun s _ _ => if s = (⟨0, 10⟩ : Pos) then
          (⟨⟨1, 10⟩, none, false, some 7, false⟩ : TraceResult)
        else ⟨⟨1, 18⟩, none, true, none, false⟩)
        ⟨⟨0, 10⟩, ⟨1, 9⟩⟩ ⟨5, 10⟩ ⟨false, false, false⟩).hitEntity = some 7 ∧
    ((traceBox
        (fun s _ _ => if s = (⟨0, 10⟩ : Pos) then
          (⟨⟨1, 10⟩, none, false, some 7, false⟩ : TraceResult)
        else ⟨⟨1, 18⟩, none, true, none, false⟩)
        ⟨⟨0, 10⟩, ⟨1, 9⟩⟩ ⟨5, 10⟩ ⟨false, false, false⟩).endPos.delta
          (⟨0, 10⟩ : Pos)).norm1 = 1 ∧
    ∃ d ∈ sampledOffsets ⟨⟨0, 10⟩, ⟨1, 9⟩⟩ ⟨5, 10⟩,
      (lineAt
          (fun s _ _ => if s = (⟨0, 10⟩ : Pos) then
            (⟨⟨1, 10⟩, none, false, some 7, false⟩ : TraceResult)
          else ⟨⟨1, 18⟩, none, true, none, false⟩)
          (⟨0, 10⟩ : Pos) ⟨5, 10⟩ ⟨false, false, false⟩ d).hitEntity = some 7 ∧
      (traceBox
          (fun s _ _ => if s = (⟨0, 10⟩ : Pos) then
            (⟨⟨1, 10⟩, none, false, some 7, false⟩ : TraceResult)
          else ⟨⟨1, 18⟩, none, true, none, false⟩)
          ⟨⟨0, 10⟩, ⟨1, 9⟩⟩ ⟨5, 10⟩ ⟨false, false, false⟩).endPos =
        (lineAt
            (fun s _ _ => if s = (⟨0, 10⟩ : Pos) then
              (⟨⟨1, 10⟩, none, false, some 7, false⟩ : TraceResult)
            else ⟨⟨1, 18⟩, none, true, none, false⟩)
            (⟨0, 10⟩ : Pos) ⟨5, 10⟩ ⟨false, false, false⟩ d).endPos.sub d :=
  c4_tracebox_entity_tie_break
    (fun s _ _ => if s = (⟨0, 10⟩ : Pos) then
      (⟨⟨1, 10⟩, none, false, some 7, false⟩ : TraceResult)
    else ⟨⟨1, 18⟩, none, true, none, false⟩)
    ⟨⟨0, 10⟩, ⟨1, 9⟩⟩ ⟨5, 10⟩ ⟨false, false, false⟩ 1 7
    (by decide) (by decide) (by decide) (by decide)

end AAAAXY
